import Mathlib

/-!
Verification of the maptile_cacher tile proxy.

This file gives a shallow embedding of the core of the repository and settles
the frozen claims about it.

Embedded source files:
* src/types.rs            — TileKey, TileData
* src/error.rs            — AppError and its HTTP status mapping
* src/cache/disk.rs       — DiskCache (payload file, .tmp file, .etag sidecar)
* src/cache/memory.rs     — MemoryCache (modelled as a key-indexed map; the
                            weight/eviction policy is not needed by any claim)
* src/cache/coalescing.rs — RequestCoalescer / CoalesceGuard
* src/handlers/tile.rs    — get_tile and fetch_with_coalescing

Machine integers are modelled as Nat.  The only place where fixed width
matters is the coordinate check "1u32 << z" in get_tile (tile.rs:35): for a
u32 shift the release-build semantics masks the shift amount, so it is
modelled as 2 ^ (z % 32).  Byte payloads are List Nat; the filesystem is
modelled per key (the path encoding z/x/y.{png,tmp,etag} is injective, so a
key-indexed store is faithful).  Fallible I/O and upstream responses enter
the model as explicit oracle inputs.
-/

/-! ## types.rs -/

/-- TileKey (types.rs:4-9): z is a u8, x and y are u32. -/
structure TileKey where
  z : Nat
  x : Nat
  y : Nat
deriving DecidableEq

/-- TileKey::new (types.rs:12-14).  It stores the fields unchecked: no
validation of x or y against the zoom level happens here. -/
def TileKey.new (z x y : Nat) : TileKey := ⟨z, x, y⟩

/-- TileData (types.rs:35-39): payload bytes plus optional ETag. -/
structure TileData where
  data : List Nat
  etag : Option String
deriving DecidableEq

/-! ## error.rs -/

/-- AppError (error.rs:5-21).  Upstream and Io carry opaque causes in the
source; the cause does not affect any claim, so they are nullary here. -/
inductive AppError
  | Upstream
  | Io
  | NotFound
  | InvalidCoordinates
  | UpstreamStatus (code : Nat)
deriving DecidableEq

/-- AppError::into_response status selection (error.rs:24-32).
StatusCode::from_u16 accepts codes in 100..=999; anything else falls back to
BAD_GATEWAY (502). -/
def AppError.status : AppError → Nat
  | AppError.NotFound => 404
  | AppError.InvalidCoordinates => 400
  | AppError.UpstreamStatus code => if 100 ≤ code ∧ code ≤ 999 then code else 502
  | AppError.Upstream => 502
  | AppError.Io => 502

/-! ## cache/disk.rs

The disk state is modelled per key with the three file classes the code
uses: the payload file z/x/y.png, the transient z/x/y.tmp and the sidecar
z/x/y.etag.  DiskCache::store (disk.rs:50-74) is a sequence of primitive
file operations; modelling it as such lets a failure cut the sequence at
any point, which is what the invariant claims are about. -/

structure DiskState where
  payload : TileKey → Option (List Nat)
  tmp : TileKey → Option (List Nat)
  sidecar : TileKey → Option String

/-- Pointwise update of a key-indexed map. -/
def upd {α : Type} (f : TileKey → α) (k : TileKey) (v : α) : TileKey → α :=
  fun k2 => if k2 = k then v else f k2

/-- The primitive file operations performed by DiskCache::store. -/
inductive FileOp
  | writeTmp (k : TileKey) (b : List Nat)
  | renameTmp (k : TileKey)
  | writeSidecar (k : TileKey) (e : String)
deriving DecidableEq

def applyOp (st : DiskState) : FileOp → DiskState
  | FileOp.writeTmp k b => { st with tmp := upd st.tmp k (some b) }
  | FileOp.renameTmp k =>
      match st.tmp k with
      | some b =>
          { st with payload := upd st.payload k (some b), tmp := upd st.tmp k none }
      | none => st
  | FileOp.writeSidecar k e => { st with sidecar := upd st.sidecar k (some e) }

/-- The operation sequence of DiskCache::store (disk.rs:58-71): write the
bytes to the sibling .tmp path, rename it onto the payload path, and only
then — and only when an ETag was supplied — write the sidecar. -/
def storeOps (k : TileKey) (b : List Nat) (e : Option String) : List FileOp :=
  [FileOp.writeTmp k b, FileOp.renameTmp k] ++
    (match e with
     | some s => [FileOp.writeSidecar k s]
     | none => [])

/-- DiskCache::store (disk.rs:50-74), successful run: all operations apply. -/
def DiskCache.store (st : DiskState) (k : TileKey) (b : List Nat) (e : Option String) :
    DiskState :=
  (storeOps k b e).foldl applyOp st

/-- A store interrupted by an I/O failure: only the first n file operations
took effect (disk.rs:57: a failure at any step is reported and the sequence
stops there). -/
def storeUpTo (st : DiskState) (k : TileKey) (b : List Nat) (e : Option String)
    (n : Nat) : DiskState :=
  ((storeOps k b e).take n).foldl applyOp st

/-- DiskCache::get (disk.rs:35-47): open the payload file (absent → None),
read the bytes, then attach the sidecar if it is readable. -/
def DiskCache.get (st : DiskState) (k : TileKey) : Option TileData :=
  match st.payload k with
  | none => none
  | some b => some ⟨b, st.sidecar k⟩

/-- DiskCache::get_etag (disk.rs:77-79). -/
def DiskCache.get_etag (st : DiskState) (k : TileKey) : Option String :=
  st.sidecar k

/-- Injected filesystem failures for DiskCache::get: File::open / mmap can
fail (disk.rs:37-40), and reading the sidecar can fail (disk.rs:44). -/
structure FsOracle where
  openFails : Bool
  etagReadFails : Bool
deriving DecidableEq

/-- DiskCache::get under injected I/O failures.  Both fallible reads are
followed by .ok()? / .ok() in the source, so a failure degrades to None —
get never surfaces an error. -/
def DiskCache.get_fallible (st : DiskState) (k : TileKey) (o : FsOracle) :
    Option TileData :=
  match (if o.openFails then none else st.payload k) with
  | none => none
  | some b => some ⟨b, if o.etagReadFails then none else st.sidecar k⟩

/-- Global invariant 3 of the spec: a sidecar on disk implies the payload
file is on disk. -/
def SidecarInv (st : DiskState) : Prop :=
  ∀ k, (st.sidecar k).isSome → (st.payload k).isSome

def emptyDisk : DiskState := ⟨fun _ => none, fun _ => none, fun _ => none⟩

/-! ## cache/memory.rs -/

def MemState : Type := TileKey → Option TileData

/-- MemoryCache::insert_tile (memory.rs:33-35). -/
def MemoryCache.insert_tile (m : MemState) (k : TileKey) (t : TileData) : MemState :=
  upd m k (some t)

/-- MemoryCache::insert (memory.rs:28-31): wraps the bytes and etag into a
fresh TileData and inserts it. -/
def MemoryCache.insert (m : MemState) (k : TileKey) (b : List Nat)
    (e : Option String) : MemState :=
  MemoryCache.insert_tile m k ⟨b, e⟩

def emptyMem : MemState := fun _ => none

/-! ## upstream/osm.rs — result type

OsmFetcher::fetch (osm.rs:47-78) returns Data on a 200, NotModified on a
304, and an error otherwise.  What the upstream answers is external input,
so a fetch outcome is an oracle value in the model. -/

inductive FetchResult
  | Data (t : TileData)
  | NotModified
deriving DecidableEq

inductive FetchOutcome
  | ok (r : FetchResult)
  | err (e : AppError)
deriving DecidableEq

/-! ## handlers/tile.rs — sequential embedding of the acquired branch -/

structure SeqState where
  disk : DiskState
  mem : MemState

/-- Observable interactions of one request, in program order.  Used to state
the fail-fast and release-ordering claims. -/
inductive SeqEvent
  | memGet (k : TileKey)
  | diskGet (k : TileKey)
  | tryAcquire (k : TileKey)
  | awaitNotify (k : TileKey)
  | getEtag (k : TileKey)
  | fetchStart (k : TileKey) (cond : Option String)
  | guardRelease (k : TileKey)
  | diskStore (k : TileKey)
  | memInsert (k : TileKey)
deriving DecidableEq

/-- External inputs consumed by one pass through the Acquired branch of
fetch_with_coalescing (tile.rs:71-116): the two possible upstream responses
and, for each of the two possible disk stores, an optional injected I/O
failure (none = the store succeeds; some n = it fails after n file
operations). -/
structure AcquireOracle where
  fetch1 : FetchOutcome
  fetch2 : FetchOutcome
  storeFail1 : Option Nat
  storeFail2 : Option Nat

inductive TileResult
  | ok (t : TileData)
  | err (e : AppError)
deriving DecidableEq

/-- The Acquired branch of fetch_with_coalescing (tile.rs:71-116):
read the stored etag (73), fetch upstream (75), release the guard (78),
then process the result (80-116).  The returned event list records the
interactions in program order. -/
def acquiredBranch (st : SeqState) (k : TileKey) (o : AcquireOracle) :
    TileResult × SeqState × List SeqEvent :=
  let storedEtag := DiskCache.get_etag st.disk k
  let evs0 := [SeqEvent.getEtag k, SeqEvent.fetchStart k storedEtag,
               SeqEvent.guardRelease k]
  match o.fetch1 with
  | FetchOutcome.ok (FetchResult.Data tile) =>
      -- tile.rs:81-92: store to disk (failure logged, not propagated),
      -- insert into memory, return the tile
      let disk2 :=
        match o.storeFail1 with
        | none => DiskCache.store st.disk k tile.data tile.etag
        | some n => storeUpTo st.disk k tile.data tile.etag n
      let mem2 := MemoryCache.insert st.mem k tile.data tile.etag
      (TileResult.ok tile, ⟨disk2, mem2⟩,
        evs0 ++ [SeqEvent.diskStore k, SeqEvent.memInsert k])
  | FetchOutcome.ok FetchResult.NotModified =>
      -- tile.rs:93-114
      match DiskCache.get st.disk k with
      | some tile =>
          (TileResult.ok tile, ⟨st.disk, MemoryCache.insert_tile st.mem k tile⟩,
            evs0 ++ [SeqEvent.diskGet k, SeqEvent.memInsert k])
      | none =>
          -- fallback: fetch without etag (tile.rs:100)
          match o.fetch2 with
          | FetchOutcome.ok (FetchResult.Data tile) =>
              let disk2 :=
                match o.storeFail2 with
                | none => DiskCache.store st.disk k tile.data tile.etag
                | some n => storeUpTo st.disk k tile.data tile.etag n
              let mem2 := MemoryCache.insert st.mem k tile.data tile.etag
              (TileResult.ok tile, ⟨disk2, mem2⟩,
                evs0 ++ [SeqEvent.diskGet k, SeqEvent.fetchStart k none,
                         SeqEvent.diskStore k, SeqEvent.memInsert k])
          | FetchOutcome.ok FetchResult.NotModified =>
              (TileResult.err AppError.NotFound, st,
                evs0 ++ [SeqEvent.diskGet k, SeqEvent.fetchStart k none])
          | FetchOutcome.err e =>
              -- the question-mark operator on tile.rs:100 propagates it
              (TileResult.err e, st,
                evs0 ++ [SeqEvent.diskGet k, SeqEvent.fetchStart k none])
  | FetchOutcome.err e => (TileResult.err e, st, evs0)

/-! ## handlers/tile.rs — route parsing and validation -/

/-- Rust u32::from_str digit test. -/
def isDigitChar (c : Char) : Bool := 48 ≤ c.toNat && c.toNat ≤ 57

def digitsVal (cs : List Char) : Nat :=
  cs.foldl (fun a c => a * 10 + (c.toNat - 48)) 0

/-- Rust str::parse::<u32> (tile.rs:29): an optional leading plus sign, then at
least one ASCII digit, and the value must fit in a u32; anything else is a
parse error. -/
def parseU32 (cs : List Char) : Option Nat :=
  let body := match cs with
    | '+' :: rest => rest
    | _ => cs
  if body ≠ [] ∧ body.all isDigitChar ∧ digitsVal body < 2 ^ 32 then
    some (digitsVal body)
  else none

/-- filename.strip_suffix(".png") (tile.rs:27). -/
def stripDotPng (cs : List Char) : Option (List Char) :=
  if cs.reverse.take 4 = ['g', 'n', 'p', '.'] then
    some (cs.reverse.drop 4).reverse
  else none

/-- Parsing y out of the filename (tile.rs:26-30). -/
def parseY (filename : String) : Option Nat :=
  (stripDotPng filename.data).bind parseU32

/-- The coordinate check of get_tile (tile.rs:34-38).  max_coord is
1u32 << z; for z ≥ 32 the u32 shift masks the amount (release semantics),
hence 2 ^ (z % 32).  A debug build would panic there instead; no claim
distinguishes the two for in-range zooms. -/
def validateCoords (z x y : Nat) : Bool :=
  decide (x < 2 ^ (z % 32)) && decide (y < 2 ^ (z % 32))

/-! ## handlers/tile.rs — the full handler

The retry loop of fetch_with_coalescing (tile.rs:69-135) is embedded with
fuel: each iteration either finds the key occupied (the caller awaits the
signal and re-checks the caches — in this single-request view the registry
is an input that does not change) or takes the Acquired branch using the
next oracle.  Fuel exhaustion yields none and is never reached by any
theorem below. -/

def fetch_with_coalescing :
    Nat → SeqState → (TileKey → Bool) → TileKey → List AcquireOracle →
    Option (TileResult × SeqState × List SeqEvent)
  | 0, _, _, _, _ => none
  | Nat.succ fuel, st, reg, k, oracles =>
    if reg k then
      -- Wait branch (tile.rs:118-133)
      match st.mem k with
      | some t =>
          some (TileResult.ok t, st,
            [SeqEvent.tryAcquire k, SeqEvent.awaitNotify k, SeqEvent.memGet k])
      | none =>
        match DiskCache.get st.disk k with
        | some t =>
            some (TileResult.ok t,
              ⟨st.disk, MemoryCache.insert_tile st.mem k t⟩,
              [SeqEvent.tryAcquire k, SeqEvent.awaitNotify k, SeqEvent.memGet k,
               SeqEvent.diskGet k, SeqEvent.memInsert k])
        | none =>
          match fetch_with_coalescing fuel st reg k oracles with
          | none => none
          | some (r, st2, evs) =>
              some (r, st2,
                [SeqEvent.tryAcquire k, SeqEvent.awaitNotify k, SeqEvent.memGet k,
                 SeqEvent.diskGet k] ++ evs)
    else
      match oracles with
      | [] => none
      | o :: _ =>
          match acquiredBranch st k o with
          | (r, st2, evs) => some (r, st2, SeqEvent.tryAcquire k :: evs)

/-- get_tile (tile.rs:20-63): parse y from the filename, build the TileKey
(line 32 — before validation), validate the coordinates, then memory tier,
disk tier with promotion, then the coalesced upstream tier.  Response
shaping (make_response) carries no cache state and is outside the claims,
so the handler returns the TileResult. -/
def get_tile (fuel : Nat) (st : SeqState) (reg : TileKey → Bool)
    (z x : Nat) (filename : String) (oracles : List AcquireOracle) :
    Option (TileResult × SeqState × List SeqEvent) :=
  match parseY filename with
  | none => some (TileResult.err AppError.InvalidCoordinates, st, [])
  | some y =>
    let key := TileKey.new z x y
    if validateCoords z x y then
      match st.mem key with
      | some t => some (TileResult.ok t, st, [SeqEvent.memGet key])
      | none =>
        match DiskCache.get st.disk key with
        | some t =>
            some (TileResult.ok t,
              ⟨st.disk, MemoryCache.insert_tile st.mem key t⟩,
              [SeqEvent.memGet key, SeqEvent.diskGet key, SeqEvent.memInsert key])
        | none =>
          match fetch_with_coalescing fuel st reg key oracles with
          | none => none
          | some (r, st2, evs) =>
              some (r, st2, [SeqEvent.memGet key, SeqEvent.diskGet key] ++ evs)
    else some (TileResult.err AppError.InvalidCoordinates, st, [])

/-! ## cache/coalescing.rs — concurrent model

The in-flight registry (a DashMap from TileKey to an Arc'd Notify) is
modelled as an association list from keys to signal identifiers; a signal
identifier stands for one Notify allocation, and notify_waiters on it is
modelled by adding the identifier to a signalled set.

Requests run on a multi-threaded runtime, so registry operations from
different tasks interleave arbitrarily.  Each task runs
fetch_with_coalescing for its key; its control point is a Phase:

* ready         — at the loop head, about to call try_acquire (tile.rs:70)
* heldFetching  — try_acquire returned Acquired; the task reads the stored
                  etag and performs the upstream fetch with the guard held
                  (tile.rs:71-75)
* dropPending   — the body of CoalesceGuard::complete has run (one registry
                  remove + notify_waiters, coalescing.rs:50-54), but
                  complete takes self by value and CoalesceGuard implements
                  Drop, so the drop glue at the end of complete will run
                  Drop::drop (coalescing.rs:57-63) — a second remove +
                  notify_waiters
* postRelease   — both removes have run; the task processes the fetch result
                  (tile.rs:80-116)
* bareFetching  — the result was NotModified and the disk re-read found no
                  payload, so the task performs the fallback fetch of
                  tile.rs:100 with NO guard held
* waiting sig   — try_acquire returned Wait(sig); the task awaits the signal
                  (tile.rs:118-120)
* done          — the request returned (or its task was dropped)
-/

inductive Ev
  | acquired (k : TileKey)
  | removed (k : TileKey)
deriving DecidableEq

inductive Phase
  | ready
  | heldFetching
  | dropPending
  | postRelease
  | bareFetching
  | waiting (sig : Nat)
  | done
deriving DecidableEq

structure ReqTask where
  key : TileKey
  phase : Phase
deriving DecidableEq

structure Sys where
  registry : List (TileKey × Nat)
  nextId : Nat
  signalled : List Nat
  log : List Ev
  tasks : List ReqTask
deriving DecidableEq

/-- Registry lookup (DashMap::entry occupancy test, coalescing.rs:24). -/
def rlookup : List (TileKey × Nat) → TileKey → Option Nat
  | [], _ => none
  | (k2, sig) :: rest, k => if k2 = k then some sig else rlookup rest k

/-- Registry removal of the entry for a key (DashMap::remove,
coalescing.rs:51 and 59). -/
def rremove : List (TileKey × Nat) → TileKey → List (TileKey × Nat)
  | [], _ => []
  | (k2, sig) :: rest, k => if k2 = k then rest else (k2, sig) :: rremove rest k

/-- One execution of `if let Some((_, notify)) = self.in_flight.remove(&self.key)
{ notify.notify_waiters(); }` (coalescing.rs:51-53 and 59-61): if an entry
for the key exists it is removed — whoever inserted it — and its signal is
fired; otherwise nothing happens. -/
def releaseOnce (s : Sys) (k : TileKey) : Sys :=
  match rlookup s.registry k with
  | some sig =>
      { s with registry := rremove s.registry k,
               signalled := sig :: s.signalled,
               log := Ev.removed k :: s.log }
  | none => s

/-- Interleaved small steps of the system.  The upstream's answers and the
disk contents are external, so the branch taken after a fetch resolves is
nondeterministic (procDone covers Data, NotModified-with-disk-hit and the
error return; procNotModifiedMiss covers a 304 answer whose disk re-read
finds no payload, tile.rs:93-100). -/
inductive Step : Sys → Sys → Prop
  | acquireOk (s : Sys) (i : Nat) (t : ReqTask)
      (ht : s.tasks.get? i = some t) (hp : t.phase = Phase.ready)
      (hv : rlookup s.registry t.key = none) :
      Step s { registry := (t.key, s.nextId) :: s.registry,
               nextId := s.nextId + 1,
               signalled := s.signalled,
               log := Ev.acquired t.key :: s.log,
               tasks := s.tasks.set i { key := t.key, phase := Phase.heldFetching } }
  | acquireWait (s : Sys) (i : Nat) (t : ReqTask) (sig : Nat)
      (ht : s.tasks.get? i = some t) (hp : t.phase = Phase.ready)
      (ho : rlookup s.registry t.key = some sig) :
      Step s { s with tasks := s.tasks.set i { key := t.key, phase := Phase.waiting sig } }
  | completeBody (s : Sys) (i : Nat) (t : ReqTask)
      (ht : s.tasks.get? i = some t) (hp : t.phase = Phase.heldFetching) :
      Step s { releaseOnce s t.key with
               tasks := s.tasks.set i { key := t.key, phase := Phase.dropPending } }
  | dropGlue (s : Sys) (i : Nat) (t : ReqTask)
      (ht : s.tasks.get? i = some t) (hp : t.phase = Phase.dropPending) :
      Step s { releaseOnce s t.key with
               tasks := s.tasks.set i { key := t.key, phase := Phase.postRelease } }
  | cancelHeld (s : Sys) (i : Nat) (t : ReqTask)
      (ht : s.tasks.get? i = some t) (hp : t.phase = Phase.heldFetching) :
      Step s { releaseOnce s t.key with
               tasks := s.tasks.set i { key := t.key, phase := Phase.done } }
  | procDone (s : Sys) (i : Nat) (t : ReqTask)
      (ht : s.tasks.get? i = some t) (hp : t.phase = Phase.postRelease) :
      Step s { s with tasks := s.tasks.set i { key := t.key, phase := Phase.done } }
  | procNotModifiedMiss (s : Sys) (i : Nat) (t : ReqTask)
      (ht : s.tasks.get? i = some t) (hp : t.phase = Phase.postRelease) :
      Step s { s with tasks := s.tasks.set i { key := t.key, phase := Phase.bareFetching } }
  | bareDone (s : Sys) (i : Nat) (t : ReqTask)
      (ht : s.tasks.get? i = some t) (hp : t.phase = Phase.bareFetching) :
      Step s { s with tasks := s.tasks.set i { key := t.key, phase := Phase.done } }
  | wakeRetry (s : Sys) (i : Nat) (t : ReqTask) (sig : Nat)
      (ht : s.tasks.get? i = some t) (hp : t.phase = Phase.waiting sig)
      (hs : sig ∈ s.signalled) :
      Step s { s with tasks := s.tasks.set i { key := t.key, phase := Phase.ready } }
  | wakeServed (s : Sys) (i : Nat) (t : ReqTask) (sig : Nat)
      (ht : s.tasks.get? i = some t) (hp : t.phase = Phase.waiting sig)
      (hs : sig ∈ s.signalled) :
      Step s { s with tasks := s.tasks.set i { key := t.key, phase := Phase.done } }

inductive Reach : Sys → Sys → Prop
  | refl (s : Sys) : Reach s s
  | tail {a b c : Sys} : Reach a b → Step b c → Reach a c

/-- A fresh system: empty registry, nothing signalled, all tasks at the loop
head. -/
def initSys (ts : List ReqTask) : Sys :=
  { registry := [], nextId := 0, signalled := [], log := [], tasks := ts }

/-- Phases during which an upstream fetch for the task's key is in flight:
the guard-held fetch of tile.rs:75 and the guardless fallback fetch of
tile.rs:100. -/
def isInFlightFetch : Phase → Bool
  | Phase.heldFetching => true
  | Phase.bareFetching => true
  | _ => false

/-- Number of tasks with an in-flight upstream fetch for key k. -/
def inFlightCount (s : Sys) (k : TileKey) : Nat :=
  s.tasks.countP (fun t => decide (t.key = k) && isInFlightFetch t.phase)

/-- A concrete key and a system of two concurrent requests for it. -/
def k0 : TileKey := TileKey.new 5 10 12

def twoReady : List ReqTask :=
  [⟨k0, Phase.ready⟩, ⟨k0, Phase.ready⟩]

/-! ## Registry invariants -/

def keysOf (r : List (TileKey × Nat)) : List TileKey := r.map Prod.fst

/-- Scanning the log newest-first: true when the most recent acquisition of
k has not yet been followed by a removal of k. -/
def openAcquire (k : TileKey) : List Ev → Bool
  | [] => false
  | Ev.acquired k2 :: rest => if k2 = k then true else openAcquire k rest
  | Ev.removed k2 :: rest => if k2 = k then false else openAcquire k rest

/-- Inductive invariant tying the registry to the event log: registry keys
are distinct; a key is present exactly when its last acquisition is still
open; and every acquisition in the log was made at a moment when the key
had no open acquisition. -/
def InvRL (r : List (TileKey × Nat)) (log : List Ev) : Prop :=
  (keysOf r).Nodup ∧
  (∀ k, openAcquire k log = (rlookup r k).isSome) ∧
  (∀ pre k rest, log = pre ++ Ev.acquired k :: rest → openAcquire k rest = false)

def SysInv (s : Sys) : Prop := InvRL s.registry s.log

theorem rlookup_eq_none_iff (r : List (TileKey × Nat)) (k : TileKey) :
    rlookup r k = none ↔ k ∉ keysOf r := by
  induction r with
  | nil => simp [rlookup, keysOf]
  | cons p rest ih =>
    obtain ⟨k2, sig⟩ := p
    by_cases h : k2 = k
    · subst h
      simp [rlookup, keysOf]
    · simp [rlookup, keysOf, h, Ne.symm h, ih]

theorem keysOf_rremove_sublist (r : List (TileKey × Nat)) (k : TileKey) :
    (keysOf (rremove r k)).Sublist (keysOf r) := by
  induction r with
  | nil => simp [rremove, keysOf]
  | cons p rest ih =>
    obtain ⟨k2, sig⟩ := p
    by_cases h : k2 = k
    · simp only [rremove, h, if_pos rfl]
      exact List.sublist_cons_self _ _
    · simp only [rremove, h, if_neg h, keysOf, List.map]
      exact ih.cons₂ k2

theorem nodup_keys_rremove {r : List (TileKey × Nat)} (k : TileKey)
    (h : (keysOf r).Nodup) : (keysOf (rremove r k)).Nodup :=
  (keysOf_rremove_sublist r k).nodup h

theorem rlookup_rremove_self {r : List (TileKey × Nat)} {k : TileKey}
    (h : (keysOf r).Nodup) : rlookup (rremove r k) k = none := by
  induction r with
  | nil => simp [rremove, rlookup]
  | cons p rest ih =>
    obtain ⟨k2, sig⟩ := p
    simp only [keysOf, List.map, List.nodup_cons] at h
    by_cases hk : k2 = k
    · subst hk
      simp only [rremove, if_pos rfl]
      exact (rlookup_eq_none_iff rest k2).mpr h.1
    · simp only [rremove, if_neg hk, rlookup, if_neg hk]
      exact ih h.2

theorem rlookup_rremove_ne (r : List (TileKey × Nat)) {k k2 : TileKey}
    (h : k2 ≠ k) : rlookup (rremove r k) k2 = rlookup r k2 := by
  induction r with
  | nil => simp [rremove]
  | cons p rest ih =>
    obtain ⟨k3, sig⟩ := p
    by_cases hk : k3 = k
    · subst hk
      simp [rremove, rlookup, if_neg (Ne.symm h)]
    · simp only [rremove, if_neg hk, rlookup, ih]

theorem invRL_acquire {r : List (TileKey × Nat)} {log : List Ev} {k : TileKey}
    (id : Nat) (hinv : InvRL r log) (hnone : rlookup r k = none) :
    InvRL ((k, id) :: r) (Ev.acquired k :: log) := by
  obtain ⟨h0, h1, h2⟩ := hinv
  refine ⟨?_, ?_, ?_⟩
  · simp only [keysOf, List.map, List.nodup_cons]
    exact ⟨(rlookup_eq_none_iff r k).mp hnone, h0⟩
  · intro k2
    by_cases hk : k = k2
    · subst hk
      simp [openAcquire, rlookup]
    · simp only [openAcquire, if_neg hk, rlookup, if_neg hk]
      exact h1 k2
  · intro pre k2 rest heq
    cases pre with
    | nil =>
      simp only [List.nil_append, List.cons.injEq, Ev.acquired.injEq] at heq
      obtain ⟨hk, hlog⟩ := heq
      subst hk
      subst hlog
      rw [h1 k, hnone]
      rfl
    | cons e pre2 =>
      simp only [List.cons_append, List.cons.injEq] at heq
      exact h2 pre2 k2 rest heq.2

theorem sysInv_release (s : Sys) (k : TileKey) (hinv : SysInv s) :
    SysInv (releaseOnce s k) := by
  obtain ⟨h0, h1, h2⟩ := hinv
  cases hl : rlookup s.registry k with
  | none =>
    simpa [SysInv, releaseOnce, hl] using ⟨h0, h1, h2⟩
  | some sig =>
    simp only [SysInv, releaseOnce, hl]
    refine ⟨nodup_keys_rremove k h0, ?_, ?_⟩
    · intro k2
      by_cases hk : k = k2
      · subst hk
        simp [openAcquire, rlookup_rremove_self h0]
      · have hk2 : k2 ≠ k := fun hh => hk hh.symm
        simp only [openAcquire, if_neg hk, rlookup_rremove_ne _ hk2]
        exact h1 k2
    · intro pre k2 rest heq
      cases pre with
      | nil => simp at heq
      | cons e pre2 =>
        simp only [List.cons_append, List.cons.injEq] at heq
        exact h2 pre2 k2 rest heq.2

theorem sysInv_step {s s2 : Sys} (hinv : SysInv s) (h : Step s s2) : SysInv s2 := by
  cases h with
  | acquireOk i t ht hp hv => exact invRL_acquire s.nextId hinv hv
  | acquireWait i t sig ht hp ho => exact hinv
  | completeBody i t ht hp => exact sysInv_release s t.key hinv
  | dropGlue i t ht hp => exact sysInv_release s t.key hinv
  | cancelHeld i t ht hp => exact sysInv_release s t.key hinv
  | procDone i t ht hp => exact hinv
  | procNotModifiedMiss i t ht hp => exact hinv
  | bareDone i t ht hp => exact hinv
  | wakeRetry i t sig ht hp hs => exact hinv
  | wakeServed i t sig ht hp hs => exact hinv

theorem sysInv_init (ts : List ReqTask) : SysInv (initSys ts) := by
  refine ⟨by simp [initSys, keysOf], fun k => rfl, ?_⟩
  intro pre k rest heq
  exact absurd heq (by cases pre <;> simp [initSys])

theorem sysInv_reach {s0 s : Sys} (h : Reach s0 s) (hinv : SysInv s0) : SysInv s := by
  induction h with
  | refl => exact hinv
  | tail hr hstep ih => exact sysInv_step ih hstep

theorem openAcquire_false_elim {k : TileKey} :
    ∀ (l : List Ev) (n : Nat), openAcquire k l = false →
      l[n]? = some (Ev.acquired k) →
      ∃ m, m < n ∧ l[m]? = some (Ev.removed k) := by
  intro l
  induction l with
  | nil =>
    intro n _ hn
    simp at hn
  | cons e rest ih =>
    intro n hfalse hn
    cases e with
    | acquired k2 =>
      by_cases hk : k2 = k
      · subst hk
        simp [openAcquire] at hfalse
      · cases n with
        | zero =>
          simp only [List.getElem?_cons_zero, Option.some.injEq,
            Ev.acquired.injEq] at hn
          exact absurd hn hk
        | succ n =>
          rw [openAcquire, if_neg hk] at hfalse
          rw [List.getElem?_cons_succ] at hn
          obtain ⟨m, hm, hget⟩ := ih n hfalse hn
          exact ⟨m + 1, by omega, by rwa [List.getElem?_cons_succ]⟩
    | removed k2 =>
      by_cases hk : k2 = k
      · subst hk
        cases n with
        | zero => simp at hn
        | succ n =>
          exact ⟨0, by omega, by simp⟩
      · cases n with
        | zero => simp [hk] at hn
        | succ n =>
          rw [openAcquire, if_neg hk] at hfalse
          rw [List.getElem?_cons_succ] at hn
          obtain ⟨m, hm, hget⟩ := ih n hfalse hn
          exact ⟨m + 1, by omega, by rwa [List.getElem?_cons_succ]⟩

/-! ## Claim theorems -/

/-- C1 (amended): single-flight holds for guard-held fetches in the
separation sense — in every reachable execution, between any two
acquisitions of the coalescing guard for the same key (each of which is
what starts a guard-held upstream fetch, tile.rs:70-75) there is a removal
of that key's registry entry.  The log is newest-first, so index i is the
later acquisition.  The instantaneous form of the claim is refuted
separately: the fallback re-fetch of tile.rs:100 runs with no guard held,
so two in-flight upstream fetches for one key are reachable. -/
theorem C1_acquire_separation (ts : List ReqTask) (s : Sys) (k : TileKey)
    (i j : Nat) (hr : Reach (initSys ts) s)
    (hi : s.log[i]? = some (Ev.acquired k))
    (hj : s.log[j]? = some (Ev.acquired k))
    (hij : i < j) :
    ∃ m, i < m ∧ m < j ∧ s.log[m]? = some (Ev.removed k) := by
  obtain ⟨h0, h1, h2⟩ := sysInv_reach hr (sysInv_init ts)
  obtain ⟨hilen, hival⟩ := List.getElem?_eq_some.mp hi
  have hdecomp : s.log = s.log.take i ++ Ev.acquired k :: s.log.drop (i + 1) := by
    conv_lhs => rw [← List.take_append_drop i s.log,
      List.drop_eq_getElem_cons hilen]
    rw [hival]
  have hopen := h2 (s.log.take i) k (s.log.drop (i + 1)) hdecomp
  have hj2 : (s.log.drop (i + 1))[j - (i + 1)]? = some (Ev.acquired k) := by
    rw [List.getElem?_drop]
    have harith : i + 1 + (j - (i + 1)) = j := by omega
    rw [harith]
    exact hj
  obtain ⟨m2, hm2lt, hm2⟩ := openAcquire_false_elim _ _ hopen hj2
  rw [List.getElem?_drop] at hm2
  exact ⟨i + 1 + m2, by omega, by omega, hm2⟩


/-- C1 (counterexample): a reachable state in which two upstream fetches for
the same key are in flight at the same instant.  Task 0 acquires, its fetch
resolves to NotModified, it releases the guard (tile.rs:78), its disk
re-read finds no payload and it starts the guardless fallback fetch
(tile.rs:100); task 1 then acquires the now-free key and starts its own
guard-held fetch while task 0's fallback fetch is still in flight. -/
theorem C1_counterexample :
    ∃ s, Reach (initSys twoReady) s ∧ inFlightCount s k0 = 2 := by
  have chain := Reach.tail (Reach.tail (Reach.tail (Reach.tail (Reach.tail
    (Reach.refl (initSys twoReady))
    (Step.acquireOk _ 0 ⟨k0, Phase.ready⟩ rfl rfl rfl))
    (Step.completeBody _ 0 ⟨k0, Phase.heldFetching⟩ rfl rfl))
    (Step.dropGlue _ 0 ⟨k0, Phase.dropPending⟩ rfl rfl))
    (Step.procNotModifiedMiss _ 0 ⟨k0, Phase.postRelease⟩ rfl rfl))
    (Step.acquireOk _ 1 ⟨k0, Phase.ready⟩ rfl rfl rfl)
  exact ⟨_, chain, by decide⟩

/-- C1 witness: the separation theorem applied to a concrete reachable
execution whose log holds two acquisitions of k0. -/
theorem C1_acquire_separation_witness :
    ∃ s, Reach (initSys twoReady) s ∧
      ∃ m, 0 < m ∧ m < 2 ∧ s.log[m]? = some (Ev.removed k0) := by
  have chain := Reach.tail (Reach.tail (Reach.tail
    (Reach.refl (initSys twoReady))
    (Step.acquireOk _ 0 ⟨k0, Phase.ready⟩ rfl rfl rfl))
    (Step.completeBody _ 0 ⟨k0, Phase.heldFetching⟩ rfl rfl))
    (Step.acquireOk _ 1 ⟨k0, Phase.ready⟩ rfl rfl rfl)
  exact ⟨_, chain,
    C1_acquire_separation twoReady _ k0 0 2 chain (by decide) (by decide)
      (by decide)⟩

/-- C4 evidence: CoalesceGuard::complete(self) removes the registry entry
(coalescing.rs:51), and because complete takes self by value and the type
implements Drop, the drop glue at the end of complete runs Drop::drop
(coalescing.rs:58-62) — a second remove.  If another task acquires between
the two removes, the second remove deletes the new acquirer's entry and
fires its Notify.  The reachable state exhibited here has task 1 in a
guard-held fetch for k0 while the registry holds no entry for k0, task 1's
signal already fired, and two removal events produced by task 0's single
guard release. -/
theorem C4_double_remove_evidence :
    ∃ s, Reach (initSys twoReady) s ∧
      rlookup s.registry k0 = none ∧
      s.tasks[1]? = some ⟨k0, Phase.heldFetching⟩ ∧
      (1 : Nat) ∈ s.signalled ∧
      s.log.countP (fun e => decide (e = Ev.removed k0)) = 2 := by
  have chain := Reach.tail (Reach.tail (Reach.tail (Reach.tail
    (Reach.refl (initSys twoReady))
    (Step.acquireOk _ 0 ⟨k0, Phase.ready⟩ rfl rfl rfl))
    (Step.completeBody _ 0 ⟨k0, Phase.heldFetching⟩ rfl rfl))
    (Step.acquireOk _ 1 ⟨k0, Phase.ready⟩ rfl rfl rfl))
    (Step.dropGlue _ 0 ⟨k0, Phase.dropPending⟩ rfl rfl)
  exact ⟨_, chain, by decide⟩

/-- C3 (amended): after a successful store(k, b, e), get(k) returns a
TileData whose bytes are b; its ETag is e whenever e is Some, but when e is
None it is whatever sidecar was already on disk for k — store with no ETag
does not remove a stale sidecar (disk.rs:68-71 only writes, never deletes). -/
theorem C3_store_get_roundtrip (st : DiskState) (k : TileKey) (b : List Nat)
    (e : Option String) :
    DiskCache.get (DiskCache.store st k b e) k =
      some ⟨b, match e with
               | some s => some s
               | none => st.sidecar k⟩ := by
  cases e <;> simp [DiskCache.store, DiskCache.get, storeOps, applyOp, upd]

/-- C3 (counterexample): in a state holding a previously stored ETag "v1"
for k0, a store of fresh bytes with no ETag yields a get whose ETag is
still "v1", not None as the claim requires. -/
theorem C3_counterexample :
    DiskCache.get
        (DiskCache.store (DiskCache.store emptyDisk k0 [9] (some "v1"))
          k0 [7] none) k0 = some ⟨[7], some "v1"⟩ ∧
    ((some "v1" : Option String) = none) = False := by
  constructor
  · decide
  · simp

/-- C10: store(k, b, None) leaves every sidecar on disk unchanged, so a
store with an ETag followed by a store without one serves the new bytes
under the old validator. -/
theorem C10_store_none_preserves_sidecar (st : DiskState) (k k2 : TileKey)
    (b b1 b2 : List Nat) (e : String) :
    (DiskCache.store st k b none).sidecar k2 = st.sidecar k2 ∧
    DiskCache.get
        (DiskCache.store (DiskCache.store st k b1 (some e)) k b2 none) k =
      some ⟨b2, some e⟩ := by
  constructor <;>
    simp [DiskCache.store, DiskCache.get, storeOps, applyOp, upd]

/-- Renaming the tmp file into place can only add a payload, so it preserves
the sidecar-implies-payload invariant from any state. -/
theorem sidecarInv_renameTmp (st : DiskState) (k : TileKey) (h : SidecarInv st) :
    SidecarInv (applyOp st (FileOp.renameTmp k)) := by
  intro k2 hk2
  cases htmp : st.tmp k with
  | none =>
    simp only [applyOp, htmp] at hk2 ⊢
    exact h k2 hk2
  | some b2 =>
    simp only [applyOp, htmp] at hk2 ⊢
    by_cases hk : k2 = k
    · subst hk
      simp [upd]
    · simp only [upd, if_neg hk]
      exact h k2 hk2

/-- Writing the sidecar preserves the invariant provided the payload for its
key is already in place. -/
theorem sidecarInv_writeSidecar (st : DiskState) (k : TileKey) (s : String)
    (hp : (st.payload k).isSome) (h : SidecarInv st) :
    SidecarInv (applyOp st (FileOp.writeSidecar k s)) := by
  intro k2 hk2
  by_cases hk : k2 = k
  · subst hk
    exact hp
  · simp only [applyOp, upd, if_neg hk] at hk2
    exact h k2 hk2

/-- C8: the sidecar-implies-payload invariant is preserved by every prefix
of the store operation sequence — i.e. also when the store fails part-way —
because storeOps writes the sidecar only after the payload rename
(disk.rs:58-71), and by the complete store. -/
theorem C8_sidecar_implies_payload (st : DiskState) (k : TileKey) (b : List Nat)
    (e : Option String) (h : SidecarInv st) :
    (∀ n, SidecarInv (storeUpTo st k b e n)) ∧
    SidecarInv (DiskCache.store st k b e) := by
  have hp2 : ((applyOp (applyOp st (FileOp.writeTmp k b))
      (FileOp.renameTmp k)).payload k).isSome := by
    simp [applyOp, upd]
  have h1 : SidecarInv (applyOp st (FileOp.writeTmp k b)) := h
  have h2 : SidecarInv (applyOp (applyOp st (FileOp.writeTmp k b))
      (FileOp.renameTmp k)) := sidecarInv_renameTmp _ k h1
  constructor
  · intro n
    cases e with
    | none =>
      rcases n with - | - | m
      · exact h
      · exact h1
      · have heq : storeUpTo st k b none (m + 2) =
            applyOp (applyOp st (FileOp.writeTmp k b)) (FileOp.renameTmp k) := by
          simp [storeUpTo, storeOps]
        rw [heq]
        exact h2
    | some sgn =>
      rcases n with - | - | - | m
      · exact h
      · exact h1
      · exact h2
      · have heq : storeUpTo st k b (some sgn) (m + 3) =
            applyOp (applyOp (applyOp st (FileOp.writeTmp k b))
              (FileOp.renameTmp k)) (FileOp.writeSidecar k sgn) := by
          simp [storeUpTo, storeOps]
        rw [heq]
        exact sidecarInv_writeSidecar _ k sgn hp2 h2
  · cases e with
    | none => exact h2
    | some sgn => exact sidecarInv_writeSidecar _ k sgn hp2 h2

/-- C8 witness: the prefix invariant applied to a concrete store of an
ETagged tile into an empty disk, at the prefix cut after two operations and
for the complete store. -/
theorem C8_sidecar_implies_payload_witness :
    SidecarInv emptyDisk ∧
    SidecarInv (storeUpTo emptyDisk k0 [7] (some "v1") 2) ∧
    SidecarInv (DiskCache.store emptyDisk k0 [7] (some "v1")) := by
  have h0 : SidecarInv emptyDisk := by
    intro k2 h2
    simp [emptyDisk] at h2
  exact ⟨h0, (C8_sidecar_implies_payload emptyDisk k0 [7] (some "v1") h0).1 2,
    (C8_sidecar_implies_payload emptyDisk k0 [7] (some "v1") h0).2⟩

/-- C5: in the Acquired branch the guard is released exactly once, directly
after the upstream fetch and before anything is done with its result: the
first three events are always the etag read, the conditional fetch and the
guard release (tile.rs:73-78), and no release occurs later — so every disk
store, memory insert or returned error comes after the release. -/
theorem C5_release_before_processing (st : SeqState) (k : TileKey)
    (o : AcquireOracle) :
    (acquiredBranch st k o).2.2.take 3 =
      [SeqEvent.getEtag k, SeqEvent.fetchStart k (DiskCache.get_etag st.disk k),
       SeqEvent.guardRelease k] ∧
    ((acquiredBranch st k o).2.2.drop 3).countP
      (fun e => decide (e = SeqEvent.guardRelease k)) = 0 := by
  obtain ⟨f1, f2, s1, s2⟩ := o
  cases f1 with
  | ok r =>
    cases r with
    | Data tile => simp [acquiredBranch]
    | NotModified =>
      cases hd : DiskCache.get st.disk k with
      | some tile => simp [acquiredBranch, hd]
      | none =>
        cases f2 with
        | ok r2 => cases r2 <;> simp [acquiredBranch, hd]
        | err e => simp [acquiredBranch, hd]
  | err e => simp [acquiredBranch]

/-- C7: disk failures degrade, they do not fail requests.  When the fetch
returns Data and the disk store fails after any number n of file
operations, the tile is still inserted into the memory cache and returned
successfully (tile.rs:86-91); and a failing open in DiskCache::get yields
None — a miss — never an error (disk.rs:37-40). -/
theorem C7_disk_failures_not_propagated (st : SeqState) (k : TileKey)
    (o : AcquireOracle) (tile : TileData) (n : Nat) (orc : FsOracle)
    (h1 : o.fetch1 = FetchOutcome.ok (FetchResult.Data tile))
    (h2 : o.storeFail1 = some n)
    (h3 : orc.openFails = true) :
    (acquiredBranch st k o).1 = TileResult.ok tile ∧
    (acquiredBranch st k o).2.1.mem k = some tile ∧
    DiskCache.get_fallible st.disk k orc = none := by
  refine ⟨?_, ?_, ?_⟩ <;>
    simp [acquiredBranch, h1, h2, h3, DiskCache.get_fallible,
      MemoryCache.insert, MemoryCache.insert_tile, upd]

/-- C7 witness: a concrete Data fetch whose store fails after one file
operation, and a concrete failing disk open. -/
theorem C7_disk_failures_not_propagated_witness :
    (acquiredBranch ⟨emptyDisk, emptyMem⟩ k0
        ⟨FetchOutcome.ok (FetchResult.Data ⟨[1], some "v1"⟩),
         FetchOutcome.ok FetchResult.NotModified, some 1, none⟩).1 =
      TileResult.ok ⟨[1], some "v1"⟩ ∧
    (acquiredBranch ⟨emptyDisk, emptyMem⟩ k0
        ⟨FetchOutcome.ok (FetchResult.Data ⟨[1], some "v1"⟩),
         FetchOutcome.ok FetchResult.NotModified, some 1, none⟩).2.1.mem k0 =
      some ⟨[1], some "v1"⟩ ∧
    DiskCache.get_fallible emptyDisk k0 ⟨true, false⟩ = none :=
  C7_disk_failures_not_propagated ⟨emptyDisk, emptyMem⟩ k0 _ ⟨[1], some "v1"⟩ 1
    ⟨true, false⟩ rfl rfl rfl

/-- C2: full characterisation of the NotModified branch (tile.rs:93-114).
If the disk re-read finds a tile, it is promoted to memory and returned; if
not, a second unconditional fetch is issued — its Data is stored to disk
and memory and returned, a second NotModified fails with NotFound, and an
error propagates. -/
theorem C2_not_modified_branch (st : SeqState) (k : TileKey) (o : AcquireOracle)
    (h1 : o.fetch1 = FetchOutcome.ok FetchResult.NotModified)
    (h2 : o.storeFail2 = none) :
    (match DiskCache.get st.disk k, o.fetch2 with
     | some t, _ =>
         (acquiredBranch st k o).1 = TileResult.ok t ∧
         (acquiredBranch st k o).2.1.mem k = some t
     | none, FetchOutcome.ok (FetchResult.Data t) =>
         (acquiredBranch st k o).1 = TileResult.ok t ∧
         (acquiredBranch st k o).2.1.mem k = some t ∧
         (acquiredBranch st k o).2.1.disk.payload k = some t.data
     | none, FetchOutcome.ok FetchResult.NotModified =>
         (acquiredBranch st k o).1 = TileResult.err AppError.NotFound
     | none, FetchOutcome.err e =>
         (acquiredBranch st k o).1 = TileResult.err e) := by
  cases hd : DiskCache.get st.disk k with
  | some t =>
    constructor <;>
      simp [acquiredBranch, h1, hd, MemoryCache.insert_tile, upd]
  | none =>
    cases hf : o.fetch2 with
    | ok r =>
      cases r with
      | Data t =>
        obtain ⟨td, te⟩ := t
        refine ⟨?_, ?_, ?_⟩ <;>
          cases te <;>
            simp [acquiredBranch, h1, h2, hd, hf, MemoryCache.insert,
              MemoryCache.insert_tile, upd, DiskCache.store, storeOps,
              applyOp]
      | NotModified => simp [acquiredBranch, h1, hd, hf]
    | err e => simp [acquiredBranch, h1, hd, hf]

/-- C2 witness: the NotModified characterisation at a concrete input — an
empty disk (so the re-read misses) and a second fetch answering Data. -/
theorem C2_not_modified_branch_witness :
    (match DiskCache.get emptyDisk k0,
        (⟨FetchOutcome.ok FetchResult.NotModified,
          FetchOutcome.ok (FetchResult.Data ⟨[3], some "v2"⟩), none,
          none⟩ : AcquireOracle).fetch2 with
     | some t, _ =>
         (acquiredBranch ⟨emptyDisk, emptyMem⟩ k0
             ⟨FetchOutcome.ok FetchResult.NotModified,
              FetchOutcome.ok (FetchResult.Data ⟨[3], some "v2"⟩), none,
              none⟩).1 = TileResult.ok t ∧
         (acquiredBranch ⟨emptyDisk, emptyMem⟩ k0
             ⟨FetchOutcome.ok FetchResult.NotModified,
              FetchOutcome.ok (FetchResult.Data ⟨[3], some "v2"⟩), none,
              none⟩).2.1.mem k0 = some t
     | none, FetchOutcome.ok (FetchResult.Data t) =>
         (acquiredBranch ⟨emptyDisk, emptyMem⟩ k0
             ⟨FetchOutcome.ok FetchResult.NotModified,
              FetchOutcome.ok (FetchResult.Data ⟨[3], some "v2"⟩), none,
              none⟩).1 = TileResult.ok t ∧
         (acquiredBranch ⟨emptyDisk, emptyMem⟩ k0
             ⟨FetchOutcome.ok FetchResult.NotModified,
              FetchOutcome.ok (FetchResult.Data ⟨[3], some "v2"⟩), none,
              none⟩).2.1.mem k0 = some t ∧
         (acquiredBranch ⟨emptyDisk, emptyMem⟩ k0
             ⟨FetchOutcome.ok FetchResult.NotModified,
              FetchOutcome.ok (FetchResult.Data ⟨[3], some "v2"⟩), none,
              none⟩).2.1.disk.payload k0 = some t.data
     | none, FetchOutcome.ok FetchResult.NotModified =>
         (acquiredBranch ⟨emptyDisk, emptyMem⟩ k0
             ⟨FetchOutcome.ok FetchResult.NotModified,
              FetchOutcome.ok (FetchResult.Data ⟨[3], some "v2"⟩), none,
              none⟩).1 = TileResult.err AppError.NotFound
     | none, FetchOutcome.err e =>
         (acquiredBranch ⟨emptyDisk, emptyMem⟩ k0
             ⟨FetchOutcome.ok FetchResult.NotModified,
              FetchOutcome.ok (FetchResult.Data ⟨[3], some "v2"⟩), none,
              none⟩).1 = TileResult.err e) :=
  C2_not_modified_branch ⟨emptyDisk, emptyMem⟩ k0
    ⟨FetchOutcome.ok FetchResult.NotModified,
     FetchOutcome.ok (FetchResult.Data ⟨[3], some "v2"⟩), none, none⟩ rfl rfl

/-- A y parsed from the filename fits in a u32 (the parse rejects larger
values, tile.rs:29). -/
theorem parseY_lt (filename : String) (y : Nat) (h : parseY filename = some y) :
    y < 2 ^ 32 := by
  unfold parseY at h
  cases hs : stripDotPng filename.data with
  | none => simp [hs] at h
  | some cs =>
    rw [hs] at h
    simp only [Option.some_bind] at h
    unfold parseU32 at h
    split at h <;> (dsimp only at h; split at h) <;>
      first
        | (rename_i hcond
           obtain ⟨-, -, hlt⟩ := hcond
           injection h with hv
           rwa [hv] at hlt)
        | simp at h

/-- C6: an unparsable filename or out-of-range coordinates make get_tile
fail with InvalidCoordinates (mapped to HTTP 400 by error.rs:27) before any
memory-cache, disk-cache, coalescer or upstream interaction: the result
state is unchanged and the event trace is empty (tile.rs:25-38 run before
any tier is consulted). -/
theorem C6_invalid_coordinates_fail_fast (fuel : Nat) (st : SeqState)
    (reg : TileKey → Bool) (z x : Nat) (filename : String)
    (oracles : List AcquireOracle)
    (hx : x < 2 ^ 32)
    (hbad : parseY filename = none ∨
      ∃ y, parseY filename = some y ∧ (2 ^ z ≤ x ∨ 2 ^ z ≤ y)) :
    get_tile fuel st reg z x filename oracles =
      some (TileResult.err AppError.InvalidCoordinates, st, []) ∧
    AppError.status AppError.InvalidCoordinates = 400 := by
  refine ⟨?_, rfl⟩
  rcases hbad with hnone | ⟨y, hy, hxy⟩
  · simp [get_tile, hnone]
  · have hylt : y < 2 ^ 32 := parseY_lt _ _ hy
    have hval : validateCoords z x y = false := by
      rcases Nat.lt_or_ge z 32 with hz | hz
      · have hmod : z % 32 = z := Nat.mod_eq_of_lt hz
        rcases hxy with hbx | hby
        · simp [validateCoords, hmod, Nat.not_lt_of_ge hbx]
        · simp [validateCoords, hmod, Nat.not_lt_of_ge hby]
      · have h32 : (2 : Nat) ^ 32 ≤ 2 ^ z :=
          Nat.pow_le_pow_right (by norm_num) hz
        rcases hxy with hbx | hby
        · exact absurd (lt_of_lt_of_le hx h32) (Nat.not_lt_of_ge hbx)
        · exact absurd (lt_of_lt_of_le hylt h32) (Nat.not_lt_of_ge hby)
    simp [get_tile, hy, hval]

/-- C6 witness: scenario S6 of the spec — z = 3, x = 9 is out of range
since 9 ≥ 2^3; the handler fails fast with an empty trace. -/
theorem C6_invalid_coordinates_fail_fast_witness :
    get_tile 1 ⟨emptyDisk, emptyMem⟩ (fun _ => false) 3 9 "0.png" [] =
      some (TileResult.err AppError.InvalidCoordinates, ⟨emptyDisk, emptyMem⟩, []) ∧
    AppError.status AppError.InvalidCoordinates = 400 :=
  C6_invalid_coordinates_fail_fast 1 ⟨emptyDisk, emptyMem⟩ (fun _ => false) 3 9
    "0.png" [] (by decide)
    (Or.inr ⟨0, by decide, Or.inl (by decide)⟩)

/-- C9 (counterexample): TileKey::new performs no validation (types.rs:12-14)
and get_tile constructs the key at tile.rs:32 before the range check at
tile.rs:34-38, so the system does construct TileKey values outside the
2^z × 2^z plane: TileKey::new(0, 1, 0) has x = 1 ≥ 2^0. -/
theorem C9_counterexample :
    ((TileKey.new 0 1 0).x < 2 ^ (TileKey.new 0 1 0).z) = False := by
  simp [TileKey.new]

/-- C9 (amended): the constructor does not enforce the invariant, but every
key that passes get_tile's coordinate check — the only gate through which a
key reaches the caches, the coalescer or the upstream — satisfies x < 2^z
and y < 2^z.  The u32 bounds come from the route parse (x) and from
parseY (y). -/
theorem C9_validated_keys_in_plane (z x y : Nat)
    (hx : x < 2 ^ 32) (hy : y < 2 ^ 32)
    (hval : validateCoords z x y = true) :
    (TileKey.new z x y).x < 2 ^ (TileKey.new z x y).z ∧
    (TileKey.new z x y).y < 2 ^ (TileKey.new z x y).z := by
  simp only [validateCoords, Bool.and_eq_true, decide_eq_true_eq] at hval
  obtain ⟨hvx, hvy⟩ := hval
  rcases Nat.lt_or_ge z 32 with hz | hz
  · rw [Nat.mod_eq_of_lt hz] at hvx hvy
    exact ⟨hvx, hvy⟩
  · have h32 : (2 : Nat) ^ 32 ≤ 2 ^ z := Nat.pow_le_pow_right (by norm_num) hz
    exact ⟨lt_of_lt_of_le hx h32, lt_of_lt_of_le hy h32⟩

/-- C9 witness: the in-range key (3, 5, 6) passes validation and lies in
the plane. -/
theorem C9_validated_keys_in_plane_witness :
    (TileKey.new 3 5 6).x < 2 ^ (TileKey.new 3 5 6).z ∧
    (TileKey.new 3 5 6).y < 2 ^ (TileKey.new 3 5 6).z :=
  C9_validated_keys_in_plane 3 5 6 (by decide) (by decide) (by decide)
